import Mathlib

/-!
Verification of the pelite `pe64::pe` core (address translation, typed
reads, header validation) against its natural-language specification.

The definitions below are a shallow embedding of `src/pe64/pe.rs`:
machine integers are modelled as `Nat` with explicit `% 2^32` / `% 2^64`
at the places where the Rust code performs `u32` / `u64` / cast
arithmetic (Rust release-mode wrapping semantics), byte buffers are
`List Nat` with each read normalised modulo 256, and fallible
operations return `Except Error _`.
-/

set_option maxRecDepth 4000

namespace Pelite

/-- 2^32, the modulus of `u32` / `Rva` arithmetic. -/
def U32_MOD : Nat := 4294967296

/-- 2^64, the modulus of `u64` / `Va` / `usize` arithmetic. -/
def U64_MOD : Nat := 18446744073709551616

/-- `usize` modulus (64-bit target). -/
def USIZE_MOD : Nat := 18446744073709551616

/-- Modelled from the spec: the error taxonomy of `error.rs` (not part of
the provided source; only `pe.rs` is).  The variant names are the ones
`pe.rs` itself mentions (`Error::Null`, `Error::OOB`, `Error::ZeroFill`,
`Error::Overflow`, `Error::BadMagic`, `Error::Misalign`,
`Error::Insanity`, `Error::CStr`), matching spec section 7. -/
inductive Error where
  | Null
  | OOB
  | ZeroFill
  | Overflow
  | BadMagic
  | Misalign
  | Insanity
  | CStr
deriving DecidableEq

instance : DecidableEq (Except Error Nat) := fun a b =>
  match a, b with
  | .ok x, .ok y => if h : x = y then .isTrue (by rw [h]) else .isFalse (by simp [h])
  | .error e, .error f => if h : e = f then .isTrue (by rw [h]) else .isFalse (by simp [h])
  | .ok _, .error _ => .isFalse (by simp)
  | .error _, .ok _ => .isFalse (by simp)

/-- Modelled from the spec: `IMAGE_DOS_SIGNATURE` (0x5A4D, "MZ") lives in
the missing `image.rs`; the value is given by spec section 6. -/
def IMAGE_DOS_SIGNATURE : Nat := 0x5A4D

/-- Modelled from the spec: NT header signature 0x00004550 ("PE\x5c0\x5c0"). -/
def IMAGE_NT_HEADERS_SIGNATURE : Nat := 0x00004550

/-- Modelled from the spec: PE32+ optional header magic 0x020B. -/
def IMAGE_NT_OPTIONAL_HDR_MAGIC : Nat := 0x020B

/-- Modelled from the spec: the data directory has 16 well-known slots. -/
def IMAGE_NUMBEROF_DIRECTORY_ENTRIES : Nat := 16

/-- The four section header fields used by `pe.rs` (the full struct in the
missing `image.rs` also carries Name, relocation and characteristics
fields, none of which the core touches).  All four are `u32`. -/
structure IMAGE_SECTION_HEADER where
  VirtualSize : Nat
  VirtualAddress : Nat
  SizeOfRawData : Nat
  PointerToRawData : Nat
deriving DecidableEq

/-- One data directory entry: an (RVA, size) pair, both `u32`. -/
structure IMAGE_DATA_DIRECTORY where
  VirtualAddress : Nat
  Size : Nat
deriving DecidableEq

/-- The optional header fields used by `pe.rs`.  `ImageBase` is `u64`,
the rest are `u32`/`u16`; `DataDirectory` is a fixed 16-entry array. -/
structure IMAGE_OPTIONAL_HEADER where
  Magic : Nat
  ImageBase : Nat
  SizeOfImage : Nat
  SizeOfHeaders : Nat
  NumberOfRvaAndSizes : Nat
  DataDirectory : List IMAGE_DATA_DIRECTORY
deriving DecidableEq

/-- The file header fields used by `pe.rs` (both `u16`). -/
structure IMAGE_FILE_HEADER where
  NumberOfSections : Nat
  SizeOfOptionalHeader : Nat
deriving DecidableEq

/-- `VirtualEnd` as computed inside `Pe::rva_to_file_offset`:
`it.VirtualAddress + cmp::max(it.VirtualSize, it.SizeOfRawData)`,
a `u32` sum (wrapping in release builds). -/
def sectionVirtualEnd (s : IMAGE_SECTION_HEADER) : Nat :=
  (s.VirtualAddress + max s.VirtualSize s.SizeOfRawData) % U32_MOD

/-- Wrapping `u32` subtraction `a - b` (operands taken mod 2^32). -/
def u32_sub (a b : Nat) : Nat :=
  (a % U32_MOD + (U32_MOD - b % U32_MOD)) % U32_MOD

/-- `Pe::rva_to_file_offset`: scan the section headers in storage order;
the first section whose `[VirtualAddress, VirtualEnd)` contains the rva
resolves it (raw data hit, or `ZeroFill` for the zero-filled tail);
otherwise rvas below `SizeOfHeaders` map to themselves, and everything
else is `OOB`.  `soh` is `optional_header().SizeOfHeaders`. -/
def rva_to_file_offset : List IMAGE_SECTION_HEADER → Nat → Nat → Except Error Nat
  | [], soh, rva =>
    if rva < soh then .ok rva else .error .OOB
  | it :: rest, soh, rva =>
    if it.VirtualAddress ≤ rva ∧ rva < sectionVirtualEnd it then
      if rva < (it.VirtualAddress + it.SizeOfRawData) % U32_MOD then
        .ok ((rva - it.VirtualAddress + it.PointerToRawData) % U32_MOD)
      else
        .error .ZeroFill
    else
      rva_to_file_offset rest soh rva

/-- `Pe::file_offset_to_rva`: scan the section headers in storage order;
the first section whose raw range `[PointerToRawData, PointerToRawData +
SizeOfRawData)` (`usize` arithmetic) contains the offset resolves it:
mapped (`< PointerToRawData + VirtualSize`) offsets become
`file_offset as Rva - PointerToRawData + VirtualAddress` (`u32`
arithmetic), unmapped ones are `OOB`; offsets below `SizeOfHeaders` map
to themselves (`as Rva` truncates to `u32`). -/
def file_offset_to_rva : List IMAGE_SECTION_HEADER → Nat → Nat → Except Error Nat
  | [], soh, fo =>
    if fo < soh then .ok (fo % U32_MOD) else .error .OOB
  | it :: rest, soh, fo =>
    if it.PointerToRawData ≤ fo ∧ fo < it.PointerToRawData + it.SizeOfRawData then
      if fo < it.PointerToRawData + it.VirtualSize then
        .ok ((u32_sub (fo % U32_MOD) it.PointerToRawData + it.VirtualAddress) % U32_MOD)
      else
        .error .OOB
    else
      file_offset_to_rva rest soh fo

/-- `Pe::rva_to_va`: null rva is `Null`; rvas below `SizeOfImage` map to
`ImageBase + rva` (`u64` addition, wrapping); the rest are `OOB`. -/
def rva_to_va (opt : IMAGE_OPTIONAL_HEADER) (rva : Nat) : Except Error Nat :=
  if rva = 0 then
    .error .Null
  else
    if rva < opt.SizeOfImage then
      .ok ((opt.ImageBase + rva) % U64_MOD)
    else
      .error .OOB

/-- `Pe::va_to_rva`: null va is `Null`; the code rejects
`va < image_base` and `va - image_base > size_of_image` as `OOB` and
otherwise returns `(va - image_base) as Rva` (truncating `u64 → u32`
cast).  Note the boundary: `va = image_base + size_of_image` is
accepted. -/
def va_to_rva (opt : IMAGE_OPTIONAL_HEADER) (va : Nat) : Except Error Nat :=
  if va = 0 then
    .error .Null
  else
    if va < opt.ImageBase ∨ opt.SizeOfImage < va - opt.ImageBase then
      .error .OOB
    else
      .ok ((va - opt.ImageBase) % U32_MOD)

/-- `Pe::data_directory`: the first `min(NumberOfRvaAndSizes, 16)`
entries of the fixed data directory array. -/
def data_directory (opt : IMAGE_OPTIONAL_HEADER) : List IMAGE_DATA_DIRECTORY :=
  opt.DataDirectory.take (min opt.NumberOfRvaAndSizes IMAGE_NUMBEROF_DIRECTORY_ENTRIES)

/-! ### Byte-level image access

`pe.rs` reinterprets the raw byte buffer as header structs via pointer
casts; the struct layouts live in the missing `image.rs`.  Modelled from
the spec: spec section 6 demands the bit-exact little-endian Microsoft
PE/COFF layout, which fixes every offset used below (DOS header 64
bytes with `e_magic` at 0 and `e_lfanew` at 60; `IMAGE_NT_HEADERS` 264
bytes = signature 4 + file header 20 + PE32+ optional header 240;
`NumberOfSections` at file-header offset 2; `SizeOfOptionalHeader` at
file-header offset 16; optional header: `Magic` 0, `ImageBase` 24,
`SizeOfImage` 56, `SizeOfHeaders` 60, `NumberOfRvaAndSizes` 108,
`DataDirectory` 112 with 8-byte entries; `IMAGE_SECTION_HEADER` 40
bytes with `VirtualSize` 8, `VirtualAddress` 12, `SizeOfRawData` 16,
`PointerToRawData` 20). -/

/-- Read one byte of the buffer (bytes are `u8`, hence the mod 256). -/
def read8 (image : List Nat) (i : Nat) : Nat :=
  image.getD i 0 % 256

/-- Little-endian `u16` read. -/
def read16 (image : List Nat) (i : Nat) : Nat :=
  read8 image i + 256 * read8 image (i + 1)

/-- Little-endian `u32` read. -/
def read32 (image : List Nat) (i : Nat) : Nat :=
  read16 image i + 65536 * read16 image (i + 2)

/-- Little-endian `u64` read. -/
def read64 (image : List Nat) (i : Nat) : Nat :=
  read32 image i + U32_MOD * read32 image (i + 4)

/-- `dos_header().e_lfanew`, the offset of the NT headers. -/
def e_lfanew (image : List Nat) : Nat :=
  read32 image 60

/-- `Pe::optional_header`, reading the PE32+ optional header fields that
the core uses from the buffer. -/
def optional_header (image : List Nat) : IMAGE_OPTIONAL_HEADER :=
  let opt := e_lfanew image + 24
  { Magic := read16 image opt
    ImageBase := read64 image (opt + 24)
    SizeOfImage := read32 image (opt + 56)
    SizeOfHeaders := read32 image (opt + 60)
    NumberOfRvaAndSizes := read32 image (opt + 108)
    DataDirectory := (List.range 16).map fun i =>
      { VirtualAddress := read32 image (opt + 112 + i * 8)
        Size := read32 image (opt + 112 + i * 8 + 4) } }

/-- `Pe::file_header`, reading the two file header fields the core uses. -/
def file_header (image : List Nat) : IMAGE_FILE_HEADER :=
  { NumberOfSections := read16 image (e_lfanew image + 4 + 2)
    SizeOfOptionalHeader := read16 image (e_lfanew image + 4 + 16) }

/-- `Pe::section_headers`: `NumberOfSections` section headers starting
right after the optional header (`e_lfanew + 24 + SizeOfOptionalHeader`). -/
def section_headers (image : List Nat) : List IMAGE_SECTION_HEADER :=
  let start := e_lfanew image + 24 + (file_header image).SizeOfOptionalHeader
  (List.range (file_header image).NumberOfSections).map fun i =>
    { VirtualSize := read32 image (start + i * 40 + 8)
      VirtualAddress := read32 image (start + i * 40 + 12)
      SizeOfRawData := read32 image (start + i * 40 + 16)
      PointerToRawData := read32 image (start + i * 40 + 20) }

/-- `validate_headers` from `pe.rs`, transcribed check for check in
source order over the byte buffer. -/
def validate_headers (image : List Nat) : Except Error Nat :=
  if 64 > image.length then .error .OOB
  else if read16 image 0 ≠ IMAGE_DOS_SIGNATURE then .error .BadMagic
  else if read32 image 60 % 4 ≠ 0 then .error .Misalign
  else if read32 image 60 > 0x01000000 then .error .Insanity
  else
    let nt := read32 image 60
    let nt_end := nt + 264
    if nt_end > image.length then .error .OOB
    else if read32 image nt ≠ IMAGE_NT_HEADERS_SIGNATURE ∨
            read16 image (nt + 24) ≠ IMAGE_NT_OPTIONAL_HDR_MAGIC then .error .BadMagic
    else if read32 image (nt + 24 + 60) > read32 image (nt + 24 + 56) then .error .Insanity
    else
      let num_rva_sizes := min (read32 image (nt + 24 + 108)) IMAGE_NUMBEROF_DIRECTORY_ENTRIES
      let size_of_data_dir := num_rva_sizes * 8
      if nt_end + size_of_data_dir > image.length then .error .OOB
      else if read16 image (nt + 4 + 2) > 96 then .error .Insanity
      else
        let size_of_sections := read16 image (nt + 4 + 2) * 40
        let start_of_sections := nt + 24 + read16 image (nt + 4 + 16)
        if size_of_sections + start_of_sections > image.length then .error .OOB
        else .ok (read32 image (nt + 24 + 56))

/-- `Pe::rva_to_file_offset` as invoked on an image handle (the trait
method reads the section table and `SizeOfHeaders` from the buffer). -/
def rva_to_file_offset_img (image : List Nat) (rva : Nat) : Except Error Nat :=
  rva_to_file_offset (section_headers image) (optional_header image).SizeOfHeaders rva

/-- `Pe::file_offset_to_rva` as invoked on an image handle. -/
def file_offset_to_rva_img (image : List Nat) (fo : Nat) : Except Error Nat :=
  file_offset_to_rva (section_headers image) (optional_header image).SizeOfHeaders fo

/-- `Pe::rva_to_va` as invoked on an image handle. -/
def rva_to_va_img (image : List Nat) (rva : Nat) : Except Error Nat :=
  rva_to_va (optional_header image) rva

/-- `Pe::va_to_rva` as invoked on an image handle. -/
def va_to_rva_img (image : List Nat) (va : Nat) : Except Error Nat :=
  va_to_rva (optional_header image) va

/-! ### Concrete test images

Helpers assembling well-formed PE32+ byte buffers, used by the concrete
counterexamples and witnesses below. -/

/-- Little-endian encoding of a `u16`. -/
def le16 (n : Nat) : List Nat := [n % 256, n / 256 % 256]

/-- Little-endian encoding of a `u32`. -/
def le32 (n : Nat) : List Nat := le16 (n % 65536) ++ le16 (n / 65536)

/-- Little-endian encoding of a `u64`. -/
def le64 (n : Nat) : List Nat := le32 (n % U32_MOD) ++ le32 (n / U32_MOD)

/-- A 40-byte section header record from
(VirtualSize, VirtualAddress, SizeOfRawData, PointerToRawData). -/
def secBytes (q : Nat × Nat × Nat × Nat) : List Nat :=
  List.replicate 8 0 ++ le32 q.1 ++ le32 q.2.1 ++ le32 q.2.2.1 ++ le32 q.2.2.2 ++
    List.replicate 16 0

/-- A minimal PE32+ image: DOS header with `e_lfanew = 64`, NT headers,
and the given section table.  `secs` lists
(VirtualSize, VirtualAddress, SizeOfRawData, PointerToRawData) tuples. -/
def mkImage (imageBase sizeOfImage sizeOfHeaders numRva : Nat)
    (secs : List (Nat × Nat × Nat × Nat)) : List Nat :=
  le16 0x5A4D ++ List.replicate 58 0 ++ le32 64 ++
  le32 0x00004550 ++
  le16 0 ++ le16 secs.length ++ le32 0 ++ le32 0 ++ le32 0 ++ le16 240 ++ le16 0 ++
  le16 0x020B ++ [0, 0] ++
  le32 0 ++ le32 0 ++ le32 0 ++ le32 0 ++ le32 0 ++
  le64 imageBase ++
  le32 0x1000 ++ le32 0x200 ++
  List.replicate 12 0 ++
  le32 0 ++
  le32 sizeOfImage ++ le32 sizeOfHeaders ++
  le32 0 ++ le16 0 ++ le16 0 ++
  List.replicate 32 0 ++
  le32 0 ++ le32 numRva ++
  List.replicate 128 0 ++
  (secs.map secBytes).flatten

/-- The spec's end-to-end scenario image: one section
(VirtualAddress 0x1000, VirtualSize 0x2000, SizeOfRawData 0x1000,
PointerToRawData 0x400), ImageBase 0x140000000, SizeOfImage 0x3000. -/
def exImage : List Nat :=
  mkImage 0x140000000 0x3000 0x400 0 [(0x2000, 0x1000, 0x1000, 0x400)]

/-- A validated image whose single section header carries insane values:
VirtualSize = VirtualAddress = 0xFFFFFFFF.  `validate_headers` accepts
it because it never inspects section header field values. -/
def exImageBad : List Nat :=
  mkImage 0x140000000 0x3000 0x400 0 [(0xFFFFFFFF, 0xFFFFFFFF, 0, 0)]

/-- A validated image with two overlapping sections: section A
(VirtualAddress 0x1000, VirtualSize 0x2000, SizeOfRawData 0x2000,
PointerToRawData 0x400) claims rva 0x2000 with raw data, while section B
(VirtualAddress 0x2000, VirtualSize 0x1000, SizeOfRawData 0) has that
same rva inside its zero-filled tail. -/
def exImageC3 : List Nat :=
  mkImage 0x140000000 0x3000 0x400 0
    [(0x2000, 0x1000, 0x2000, 0x400), (0x1000, 0x2000, 0, 0)]

/-- A validated image whose single section has SizeOfRawData (0x200)
larger than VirtualSize (0x100): rvas in `[0x1100, 0x1200)` are backed
by raw data but not mapped. -/
def exImageC4 : List Nat :=
  mkImage 0x140000000 0x3000 0x400 0 [(0x100, 0x1000, 0x200, 0x400)]

/-! ### Typed-read layer

`derva_slice` / `deref_slice` and the predicate- and sentinel-terminated
array reads.  The `Pe::slice` / `Pe::read` view primitive is abstract in
the trait (each storage backend implements it), so it is passed in as a
function argument `sliceFn` / `readFn : rva/va → min_size → align →
Except Error bytes`; `size_of::<T>()` and `align_of::<T>()` are the
parameters `sizeT` / `alignT`, and reinterpreting bytes as a `T` is the
parameter `decodeT`. -/

/-- `Pe::derva_slice`: `size_of::<T>().checked_mul(len).ok_or(Overflow)?`
then a view of at least that many bytes; `from_raw_parts` reinterprets
the first `sizeT * len` bytes as the returned `&[T]`. -/
def derva_slice (sliceFn : Nat → Nat → Nat → Except Error (List Nat))
    (sizeT alignT rva len : Nat) : Except Error (List Nat) :=
  if USIZE_MOD ≤ sizeT * len then
    .error .Overflow
  else
    (sliceFn rva (sizeT * len) alignT).map fun bytes => bytes.take (sizeT * len)

/-- `Pe::deref_slice`: identical to `derva_slice` but reads through the
va-addressed `Pe::read` primitive. -/
def deref_slice (readFn : Nat → Nat → Nat → Except Error (List Nat))
    (sizeT alignT va len : Nat) : Except Error (List Nat) :=
  if USIZE_MOD ≤ sizeT * len then
    .error .Overflow
  else
    (readFn va (sizeT * len) alignT).map fun bytes => bytes.take (sizeT * len)

/-- The `i`-th `T`-element of a byte view: the `sizeT` bytes starting at
byte offset `i * sizeT`, reinterpreted by `decodeT`. -/
def elemAt {T : Type} (decodeT : List Nat → T) (sizeT : Nat)
    (bytes : List Nat) (i : Nat) : T :=
  decodeT ((bytes.drop (i * sizeT)).take sizeT)

/-- The loop of `Pe::derva_slice_f`: starting from index `len`, find the
first element satisfying `f`, re-checking on every iteration that the
element's byte range `[len * sizeT, len * sizeT + sizeT)` still lies
inside the view, and failing with `OOB` when it does not.  `hsz`
reflects that `T` is a (non-zero-sized) Pod type, which is what makes
the Rust loop terminate. -/
def slice_f_len {T : Type} (sizeT : Nat) (decodeT : List Nat → T)
    (f : T → Bool) (bytes : List Nat) (hsz : 0 < sizeT) (len : Nat) :
    Except Error Nat :=
  if len * sizeT + sizeT > bytes.length then
    .error .OOB
  else if f (elemAt decodeT sizeT bytes len) then
    .ok len
  else
    slice_f_len sizeT decodeT f bytes hsz (len + 1)
termination_by bytes.length - len
decreasing_by
  rename_i h _hf
  simp only [not_lt] at h
  have h1 : len * sizeT + sizeT = (len + 1) * sizeT := by ring
  have h2 : len + 1 ≤ (len + 1) * sizeT := Nat.le_mul_of_pos_right _ hsz
  omega

/-- `Pe::derva_slice_f`: a view with `min_size = 0`, then the scan loop;
on success the returned slice holds the elements strictly before the
first one satisfying `f`. -/
def derva_slice_f {T : Type} (sliceFn : Nat → Nat → Nat → Except Error (List Nat))
    (sizeT : Nat) (hsz : 0 < sizeT) (alignT : Nat) (decodeT : List Nat → T)
    (f : T → Bool) (rva : Nat) : Except Error (List T) :=
  match sliceFn rva 0 alignT with
  | .error e => .error e
  | .ok bytes =>
    match slice_f_len sizeT decodeT f bytes hsz 0 with
    | .error e => .error e
    | .ok len => .ok ((List.range len).map (elemAt decodeT sizeT bytes))

/-- `Pe::derva_slice_s`: `derva_slice_f` with equality against the
sentinel as the predicate. -/
def derva_slice_s {T : Type} [DecidableEq T]
    (sliceFn : Nat → Nat → Nat → Except Error (List Nat))
    (sizeT : Nat) (hsz : 0 < sizeT) (alignT : Nat) (decodeT : List Nat → T)
    (sentinel : T) (rva : Nat) : Except Error (List T) :=
  derva_slice_f sliceFn sizeT hsz alignT decodeT (fun tee => decide (tee = sentinel)) rva

/-! ### Specification-side forms of the section scans

Refinement targets for claim C10, written from the claim's words: the
scan resolves through the *first* matching section (`List.find?` on the
storage-ordered table), and only when no section matches does the
header-region rule apply, mapping the address to itself. -/

/-- Does the section's virtual range `[VirtualAddress, VirtualEnd)`
claim the rva (the C10 claim's notion of a section claiming an RVA)? -/
def claimsSection (s : IMAGE_SECTION_HEADER) (rva : Nat) : Bool :=
  decide (s.VirtualAddress ≤ rva) && decide (rva < sectionVirtualEnd s)

/-- Does the section's raw range `[PointerToRawData, PointerToRawData +
SizeOfRawData)` contain the file offset? -/
def containsOffset (s : IMAGE_SECTION_HEADER) (fo : Nat) : Bool :=
  decide (s.PointerToRawData ≤ fo) && decide (fo < s.PointerToRawData + s.SizeOfRawData)

/-- First-match form of the rva → file offset scan, following the words
of claim C10. -/
def rvaToFileOffsetSpec (sections : List IMAGE_SECTION_HEADER) (soh rva : Nat) :
    Except Error Nat :=
  match sections.find? (fun s => claimsSection s rva) with
  | some s =>
    if rva < (s.VirtualAddress + s.SizeOfRawData) % U32_MOD then
      .ok ((rva - s.VirtualAddress + s.PointerToRawData) % U32_MOD)
    else
      .error .ZeroFill
  | none => if rva < soh then .ok rva else .error .OOB

/-- First-match form of the file offset → rva scan, following the words
of claim C10. -/
def fileOffsetToRvaSpec (sections : List IMAGE_SECTION_HEADER) (soh fo : Nat) :
    Except Error Nat :=
  match sections.find? (fun s => containsOffset s fo) with
  | some s =>
    if fo < s.PointerToRawData + s.VirtualSize then
      .ok ((u32_sub (fo % U32_MOD) s.PointerToRawData + s.VirtualAddress) % U32_MOD)
    else
      .error .OOB
  | none => if fo < soh then .ok (fo % U32_MOD) else .error .OOB

/-- A concrete optional header: PE32+ magic, ImageBase 0x140000000,
SizeOfImage 0x3000, SizeOfHeaders 0x400, no data directories. -/
def exOpt : IMAGE_OPTIONAL_HEADER :=
  { Magic := 0x020B
    ImageBase := 0x140000000
    SizeOfImage := 0x3000
    SizeOfHeaders := 0x400
    NumberOfRvaAndSizes := 0
    DataDirectory := [] }

/-- The spec's end-to-end scenario section header:
VirtualSize 0x2000, VirtualAddress 0x1000, SizeOfRawData 0x1000,
PointerToRawData 0x400. -/
def exSec : IMAGE_SECTION_HEADER :=
  { VirtualSize := 0x2000
    VirtualAddress := 0x1000
    SizeOfRawData := 0x1000
    PointerToRawData := 0x400 }

/-! ### Helper lemmas -/

theorem claimsSection_iff (s : IMAGE_SECTION_HEADER) (rva : Nat) :
    claimsSection s rva = true ↔ s.VirtualAddress ≤ rva ∧ rva < sectionVirtualEnd s := by
  simp [claimsSection]

theorem containsOffset_iff (s : IMAGE_SECTION_HEADER) (fo : Nat) :
    containsOffset s fo = true ↔
      s.PointerToRawData ≤ fo ∧ fo < s.PointerToRawData + s.SizeOfRawData := by
  simp [containsOffset]

theorem rva_to_file_offset_cons (t : IMAGE_SECTION_HEADER)
    (rest : List IMAGE_SECTION_HEADER) (soh rva : Nat) :
    rva_to_file_offset (t :: rest) soh rva =
      if t.VirtualAddress ≤ rva ∧ rva < sectionVirtualEnd t then
        if rva < (t.VirtualAddress + t.SizeOfRawData) % U32_MOD then
          .ok ((rva - t.VirtualAddress + t.PointerToRawData) % U32_MOD)
        else
          .error .ZeroFill
      else
        rva_to_file_offset rest soh rva := rfl

theorem file_offset_to_rva_cons (t : IMAGE_SECTION_HEADER)
    (rest : List IMAGE_SECTION_HEADER) (soh fo : Nat) :
    file_offset_to_rva (t :: rest) soh fo =
      if t.PointerToRawData ≤ fo ∧ fo < t.PointerToRawData + t.SizeOfRawData then
        if fo < t.PointerToRawData + t.VirtualSize then
          .ok ((u32_sub (fo % U32_MOD) t.PointerToRawData + t.VirtualAddress) % U32_MOD)
        else
          .error .OOB
      else
        file_offset_to_rva rest soh fo := rfl

/-- Sections not claiming the rva are skipped by the scan. -/
theorem rva_to_file_offset_append (pre rest : List IMAGE_SECTION_HEADER) (soh rva : Nat)
    (h : ∀ t ∈ pre, ¬(t.VirtualAddress ≤ rva ∧ rva < sectionVirtualEnd t)) :
    rva_to_file_offset (pre ++ rest) soh rva = rva_to_file_offset rest soh rva := by
  induction pre with
  | nil => rfl
  | cons t pre ih =>
    have ht := h t (List.mem_cons_self t pre)
    rw [List.cons_append, rva_to_file_offset_cons, if_neg ht]
    exact ih fun s hs => h s (List.mem_cons_of_mem t hs)

/-- Sections whose raw range misses the offset are skipped by the scan. -/
theorem file_offset_to_rva_append (pre rest : List IMAGE_SECTION_HEADER) (soh fo : Nat)
    (h : ∀ t ∈ pre, ¬(t.PointerToRawData ≤ fo ∧ fo < t.PointerToRawData + t.SizeOfRawData)) :
    file_offset_to_rva (pre ++ rest) soh fo = file_offset_to_rva rest soh fo := by
  induction pre with
  | nil => rfl
  | cons t pre ih =>
    have ht := h t (List.mem_cons_self t pre)
    rw [List.cons_append, file_offset_to_rva_cons, if_neg ht]
    exact ih fun s hs => h s (List.mem_cons_of_mem t hs)

/-- The source scan is the first-match (`List.find?`) scan. -/
theorem rva_to_file_offset_eq_spec (sections : List IMAGE_SECTION_HEADER) (soh rva : Nat) :
    rva_to_file_offset sections soh rva = rvaToFileOffsetSpec sections soh rva := by
  induction sections with
  | nil => rfl
  | cons t rest ih =>
    by_cases hc : t.VirtualAddress ≤ rva ∧ rva < sectionVirtualEnd t
    · rw [rva_to_file_offset_cons, if_pos hc]
      have hp : claimsSection t rva = true := (claimsSection_iff t rva).mpr hc
      unfold rvaToFileOffsetSpec
      simp only [List.find?, hp, cond_true]
    · rw [rva_to_file_offset_cons, if_neg hc, ih]
      have hp : claimsSection t rva = false :=
        Bool.eq_false_iff.mpr fun hx => hc ((claimsSection_iff t rva).mp hx)
      unfold rvaToFileOffsetSpec
      simp only [List.find?, hp, cond_false]

/-- The source scan is the first-match (`List.find?`) scan. -/
theorem file_offset_to_rva_eq_spec (sections : List IMAGE_SECTION_HEADER) (soh fo : Nat) :
    file_offset_to_rva sections soh fo = fileOffsetToRvaSpec sections soh fo := by
  induction sections with
  | nil => rfl
  | cons t rest ih =>
    by_cases hc : t.PointerToRawData ≤ fo ∧ fo < t.PointerToRawData + t.SizeOfRawData
    · rw [file_offset_to_rva_cons, if_pos hc]
      have hp : containsOffset t fo = true := (containsOffset_iff t fo).mpr hc
      unfold fileOffsetToRvaSpec
      simp only [List.find?, hp, cond_true]
    · rw [file_offset_to_rva_cons, if_neg hc, ih]
      have hp : containsOffset t fo = false :=
        Bool.eq_false_iff.mpr fun hx => hc ((containsOffset_iff t fo).mp hx)
      unfold fileOffsetToRvaSpec
      simp only [List.find?, hp, cond_false]

/-- If no element from `start` on satisfies `f` within the view's
bounds, the scan loop reports `OOB`. -/
theorem slice_f_len_oob {T : Type} (sizeT : Nat) (decodeT : List Nat → T)
    (f : T → Bool) (bytes : List Nat) (hsz : 0 < sizeT) :
    ∀ gas start, bytes.length + 1 - start ≤ gas →
      (∀ i, start ≤ i → (i + 1) * sizeT ≤ bytes.length →
        f (elemAt decodeT sizeT bytes i) = false) →
      slice_f_len sizeT decodeT f bytes hsz start = .error .OOB := by
  intro gas
  induction gas with
  | zero =>
    intro start hg _hno
    have hb : start * sizeT + sizeT > bytes.length := by
      have h2 : start ≤ start * sizeT := Nat.le_mul_of_pos_right _ hsz
      omega
    unfold slice_f_len
    rw [if_pos hb]
  | succ g ih =>
    intro start hg hno
    unfold slice_f_len
    by_cases hb : start * sizeT + sizeT > bytes.length
    · rw [if_pos hb]
    · rw [if_neg hb]
      have hf : ¬(f (elemAt decodeT sizeT bytes start) = true) := by
        have : f (elemAt decodeT sizeT bytes start) = false := by
          apply hno start le_rfl
          have : (start + 1) * sizeT = start * sizeT + sizeT := by ring
          omega
        simp [this]
      rw [if_neg hf]
      exact ih (start + 1) (by omega) fun i hi hib => hno i (by omega) hib

/-- When the scan loop returns an index `L`, the element at `L`
satisfies `f`, every element before it (from `start`) does not, and the
terminating element's byte range still lies inside the view. -/
theorem slice_f_len_ok {T : Type} (sizeT : Nat) (decodeT : List Nat → T)
    (f : T → Bool) (bytes : List Nat) (hsz : 0 < sizeT) :
    ∀ gas start L, bytes.length + 1 - start ≤ gas →
      slice_f_len sizeT decodeT f bytes hsz start = .ok L →
      start ≤ L ∧ (L + 1) * sizeT ≤ bytes.length ∧
        f (elemAt decodeT sizeT bytes L) = true ∧
        ∀ i, start ≤ i → i < L → f (elemAt decodeT sizeT bytes i) = false := by
  intro gas
  induction gas with
  | zero =>
    intro start L hg hok
    exfalso
    have hb : start * sizeT + sizeT > bytes.length := by
      have h2 : start ≤ start * sizeT := Nat.le_mul_of_pos_right _ hsz
      omega
    unfold slice_f_len at hok
    rw [if_pos hb] at hok
    exact absurd hok (by simp)
  | succ g ih =>
    intro start L hg hok
    unfold slice_f_len at hok
    by_cases hb : start * sizeT + sizeT > bytes.length
    · rw [if_pos hb] at hok
      exact absurd hok (by simp)
    · rw [if_neg hb] at hok
      by_cases hf : f (elemAt decodeT sizeT bytes start) = true
      · rw [if_pos hf] at hok
        injection hok with hL
        subst hL
        refine ⟨le_refl _, ?_, hf, ?_⟩
        · have : (start + 1) * sizeT = start * sizeT + sizeT := by ring
          omega
        · intro i hi hiL
          omega
      · rw [if_neg hf] at hok
        obtain ⟨h1, h2, h3, h4⟩ := ih (start + 1) L (by omega) hok
        refine ⟨by omega, h2, h3, ?_⟩
        intro i hi hiL
        rcases Nat.eq_or_lt_of_le hi with heq | hlt
        · subst heq
          exact Bool.eq_false_iff.mpr hf
        · exact h4 i (by omega) hiL

/-! ### Claim C1 -/

/-- Claim C1 (counterexample): the claim demands
`va_to_rva(ImageBase + SizeOfImage) = Err(OutOfBounds)`, but on the
validated image `exImage` (ImageBase 0x140000000, SizeOfImage 0x3000)
the code accepts the boundary va `0x140003000` and returns
`Ok(SizeOfImage)`, because the source rejects only
`va - image_base > size_of_image`, not `≥`. -/
theorem C1_counterexample :
    validate_headers exImage = .ok 0x3000 ∧
    (optional_header exImage).ImageBase = 0x140000000 ∧
    (optional_header exImage).SizeOfImage = 0x3000 ∧
    va_to_rva_img exImage 0x140003000 = .ok 0x3000 := by
  decide

/-- Claim C1 (amended): for every optional header (SizeOfImage being a
`u32`), `va_to_rva` returns `Err(Null)` when the va is zero,
`Err(OutOfBounds)` unless `va ≥ ImageBase` and
`va - ImageBase ≤ SizeOfImage` (the boundary `ImageBase + SizeOfImage`
is accepted, unlike the claim's strict `<`), and `Ok(va - ImageBase)`
otherwise. -/
theorem C1_theorem (opt : IMAGE_OPTIONAL_HEADER) (va : Nat)
    (h : opt.SizeOfImage < U32_MOD) :
    va_to_rva opt va =
      if va = 0 then .error .Null
      else if va < opt.ImageBase ∨ opt.SizeOfImage < va - opt.ImageBase then .error .OOB
      else .ok (va - opt.ImageBase) := by
  unfold va_to_rva
  by_cases h0 : va = 0
  · rw [if_pos h0, if_pos h0]
  · rw [if_neg h0, if_neg h0]
    by_cases hb : va < opt.ImageBase ∨ opt.SizeOfImage < va - opt.ImageBase
    · rw [if_pos hb, if_pos hb]
    · rw [if_neg hb, if_neg hb]
      push_neg at hb
      rw [Nat.mod_eq_of_lt (by omega)]

/-- Claim C1 (witness): the amended statement applied to the concrete
header `exOpt` at the accepted boundary va. -/
theorem C1_witness :
    exOpt.SizeOfImage < U32_MOD ∧
    va_to_rva exOpt 0x140003000 =
      (if (0x140003000 : Nat) = 0 then .error .Null
       else if (0x140003000 : Nat) < exOpt.ImageBase ∨
           exOpt.SizeOfImage < 0x140003000 - exOpt.ImageBase then .error .OOB
       else .ok (0x140003000 - exOpt.ImageBase)) :=
  ⟨by decide, C1_theorem exOpt 0x140003000 (by decide)⟩

/-! ### Claim C2 -/

/-- Claim C2 (counterexample): the reverse round trip fails at
`v = ImageBase`, which lies in `[ImageBase, ImageBase + SizeOfImage)`
and is nonzero on the validated image `exImage`: `va_to_rva` yields
`Ok(0)` and `rva_to_va(0)` is `Err(Null)`, not `Ok(v)`. -/
theorem C2_counterexample :
    validate_headers exImage = .ok 0x3000 ∧
    (optional_header exImage).ImageBase = 0x140000000 ∧
    (va_to_rva_img exImage 0x140000000).bind (rva_to_va_img exImage) = .error .Null := by
  decide

/-- Claim C2 (amended): provided `ImageBase + SizeOfImage` does not
overflow `u64` (the code's `image_base + rva` addition wraps otherwise),
the round trip `va_to_rva ∘ rva_to_va` is the identity on rvas
`0 < r < SizeOfImage`, and the reverse round trip
`rva_to_va ∘ va_to_rva` is the identity on vas *strictly* between
`ImageBase` and `ImageBase + SizeOfImage` — the claim's lower endpoint
`v = ImageBase` must be excluded, since it maps to rva 0 which
`rva_to_va` rejects as `Null`. -/
theorem C2_theorem (opt : IMAGE_OPTIONAL_HEADER)
    (h1 : opt.SizeOfImage < U32_MOD)
    (h2 : opt.ImageBase + opt.SizeOfImage ≤ U64_MOD) :
    (∀ r, 0 < r → r < opt.SizeOfImage →
      (rva_to_va opt r).bind (va_to_rva opt) = .ok r) ∧
    (∀ v, opt.ImageBase < v → v < opt.ImageBase + opt.SizeOfImage →
      (va_to_rva opt v).bind (rva_to_va opt) = .ok v) := by
  constructor
  · intro r hr0 hrs
    have e1 : rva_to_va opt r = .ok (opt.ImageBase + r) := by
      unfold rva_to_va
      rw [if_neg (by omega), if_pos hrs, Nat.mod_eq_of_lt (by omega)]
    rw [e1]
    show va_to_rva opt (opt.ImageBase + r) = .ok r
    unfold va_to_rva
    rw [if_neg (by omega), if_neg (by omega)]
    have e2 : opt.ImageBase + r - opt.ImageBase = r := by omega
    rw [e2, Nat.mod_eq_of_lt (by omega)]
  · intro v hv1 hv2
    have e1 : va_to_rva opt v = .ok (v - opt.ImageBase) := by
      unfold va_to_rva
      rw [if_neg (by omega), if_neg (by omega), Nat.mod_eq_of_lt (by omega)]
    rw [e1]
    show rva_to_va opt (v - opt.ImageBase) = .ok v
    unfold rva_to_va
    rw [if_neg (by omega), if_pos (by omega)]
    have e2 : opt.ImageBase + (v - opt.ImageBase) = v := by omega
    rw [e2, Nat.mod_eq_of_lt (by omega)]

/-- Claim C2 (witness): both round trips on the concrete header
`exOpt`, at rva 0x1000 and va 0x140001000. -/
theorem C2_witness :
    (rva_to_va exOpt 0x1000).bind (va_to_rva exOpt) = .ok 0x1000 ∧
    (va_to_rva exOpt 0x140001000).bind (rva_to_va exOpt) = .ok 0x140001000 :=
  ⟨(C2_theorem exOpt (by decide) (by decide)).1 0x1000 (by decide) (by decide),
   (C2_theorem exOpt (by decide) (by decide)).2 0x140001000 (by decide) (by decide)⟩

/-! ### Claim C6 -/

/-- Claim C6 (confirmed): whenever `size_of::<T>() * len` overflows
`usize`, `derva_slice` and `deref_slice` return `Err(Overflow)` for
*every* view primitive `sliceFn` / `readFn` — the result does not depend
on the view primitive at all, so no read is attempted. -/
theorem C6_theorem (sliceFn readFn : Nat → Nat → Nat → Except Error (List Nat))
    (sizeT alignT rva va len : Nat) (h : USIZE_MOD ≤ sizeT * len) :
    derva_slice sliceFn sizeT alignT rva len = .error .Overflow ∧
    deref_slice readFn sizeT alignT va len = .error .Overflow := by
  unfold derva_slice deref_slice
  rw [if_pos h, if_pos h]
  exact ⟨rfl, rfl⟩

/-- Claim C6 (witness): `size_of::<T>() = 2^32` and `len = 2^32`
overflow the 64-bit `usize` range. -/
theorem C6_witness :
    USIZE_MOD ≤ 4294967296 * 4294967296 ∧
    derva_slice (fun _ _ _ => .ok []) 4294967296 1 0 4294967296 = .error .Overflow ∧
    deref_slice (fun _ _ _ => .ok []) 4294967296 1 0 4294967296 = .error .Overflow :=
  ⟨by decide,
   (C6_theorem (fun _ _ _ => .ok []) (fun _ _ _ => .ok [])
     4294967296 1 0 0 4294967296 (by decide)).1,
   (C6_theorem (fun _ _ _ => .ok []) (fun _ _ _ => .ok [])
     4294967296 1 0 0 4294967296 (by decide)).2⟩

/-! ### Claim C8 -/

/-- Claim C8 (counterexample): the claim demands `BadMagic` for any
buffer with a corrupted DOS magic *regardless of the buffer's length*,
but `validate_headers` checks the buffer length against the DOS header
size first: a 63-byte all-zero buffer has magic 0 ≠ 0x5A4D yet yields
`Err(OutOfBounds)`, not `Err(BadMagic)`. -/
theorem C8_counterexample :
    read16 (List.replicate 63 0) 0 ≠ IMAGE_DOS_SIGNATURE ∧
    validate_headers (List.replicate 63 0) = .error .OOB := by
  decide

/-- Claim C8 (amended): for every buffer at least as long as the DOS
header (64 bytes) whose DOS magic differs from 0x5A4D, `validate`
returns `Err(BadMagic)` regardless of every later field. -/
theorem C8_theorem (image : List Nat) (h1 : 64 ≤ image.length)
    (h2 : read16 image 0 ≠ IMAGE_DOS_SIGNATURE) :
    validate_headers image = .error .BadMagic := by
  unfold validate_headers
  rw [if_neg (by omega), if_pos h2]

/-- Claim C8 (witness): a 64-byte all-zero buffer. -/
theorem C8_witness :
    64 ≤ (List.replicate 64 (0 : Nat)).length ∧
    read16 (List.replicate 64 0) 0 ≠ IMAGE_DOS_SIGNATURE ∧
    validate_headers (List.replicate 64 0) = .error .BadMagic :=
  ⟨by decide, by decide, C8_theorem (List.replicate 64 0) (by decide) (by decide)⟩

/-! ### Claim C9 -/

/-- Claim C9 (confirmed): `data_directory` exposes exactly
`min(NumberOfRvaAndSizes, 16)` entries of the fixed 16-slot array. -/
theorem C9_theorem (opt : IMAGE_OPTIONAL_HEADER)
    (h : opt.DataDirectory.length = IMAGE_NUMBEROF_DIRECTORY_ENTRIES) :
    (data_directory opt).length =
      min opt.NumberOfRvaAndSizes IMAGE_NUMBEROF_DIRECTORY_ENTRIES := by
  unfold data_directory
  rw [List.length_take, h]
  unfold IMAGE_NUMBEROF_DIRECTORY_ENTRIES
  omega

/-- Claim C9 (witness): the optional header parsed from the validated
image `exImage` (its `NumberOfRvaAndSizes` is 0, so 0 entries show). -/
theorem C9_witness :
    (optional_header exImage).DataDirectory.length = IMAGE_NUMBEROF_DIRECTORY_ENTRIES ∧
    (data_directory (optional_header exImage)).length =
      min (optional_header exImage).NumberOfRvaAndSizes IMAGE_NUMBEROF_DIRECTORY_ENTRIES :=
  ⟨by decide, C9_theorem (optional_header exImage) (by decide)⟩

/-! ### Claim C3 -/

/-- Claim C3 (counterexample): on the validated image `exImageC3`,
rva 0x2000 lies in the zero-filled tail of its second section
(VirtualAddress 0x2000, SizeOfRawData 0, VirtualSize 0x1000), yet
`rva_to_file_offset` returns `Ok(0x1400)` — the first section
(VirtualAddress 0x1000, VirtualSize = SizeOfRawData = 0x2000,
PointerToRawData 0x400) claims the rva first and resolves it through
raw data. -/
theorem C3_counterexample :
    validate_headers exImageC3 = .ok 0x3000 ∧
    (∃ s ∈ section_headers exImageC3,
      s.VirtualAddress + s.SizeOfRawData ≤ 0x2000 ∧
      0x2000 < s.VirtualAddress + s.VirtualSize) ∧
    rva_to_file_offset_img exImageC3 0x2000 = .ok 0x1400 := by
  decide

/-- Claim C3 (amended): `rva_to_file_offset` returns `Err(ZeroFill)`
for an rva in a section's zero-filled tail provided (a) no *earlier*
section's virtual range claims the rva (the scan is first-match), and
(b) the section's `VirtualAddress + max(VirtualSize, SizeOfRawData)`
does not overflow `u32` (the code's sum wraps otherwise and the section
stops claiming the rva). -/
theorem C3_theorem (pre post : List IMAGE_SECTION_HEADER) (s : IMAGE_SECTION_HEADER)
    (soh rva : Nat)
    (hpre : ∀ t ∈ pre, ¬(t.VirtualAddress ≤ rva ∧ rva < sectionVirtualEnd t))
    (hwf : s.VirtualAddress + max s.VirtualSize s.SizeOfRawData < U32_MOD)
    (hlo : s.VirtualAddress + s.SizeOfRawData ≤ rva)
    (hhi : rva < s.VirtualAddress + s.VirtualSize) :
    rva_to_file_offset (pre ++ s :: post) soh rva = .error .ZeroFill := by
  rw [rva_to_file_offset_append pre (s :: post) soh rva hpre]
  have hmax1 : s.VirtualSize ≤ max s.VirtualSize s.SizeOfRawData := le_max_left _ _
  have hmax2 : s.SizeOfRawData ≤ max s.VirtualSize s.SizeOfRawData := le_max_right _ _
  have hend : sectionVirtualEnd s = s.VirtualAddress + max s.VirtualSize s.SizeOfRawData := by
    unfold sectionVirtualEnd
    exact Nat.mod_eq_of_lt hwf
  have hclaim : s.VirtualAddress ≤ rva ∧ rva < sectionVirtualEnd s := by
    rw [hend]
    omega
  rw [rva_to_file_offset_cons, if_pos hclaim]
  have hraw : (s.VirtualAddress + s.SizeOfRawData) % U32_MOD =
      s.VirtualAddress + s.SizeOfRawData := Nat.mod_eq_of_lt (by omega)
  rw [if_neg (by rw [hraw]; omega)]

/-- Claim C3 (witness): the spec's end-to-end scenario — rva 0x2800 in
the zero-filled tail of `exSec` yields `Err(ZeroFill)`. -/
theorem C3_witness :
    exSec.VirtualAddress + max exSec.VirtualSize exSec.SizeOfRawData < U32_MOD ∧
    exSec.VirtualAddress + exSec.SizeOfRawData ≤ 0x2800 ∧
    0x2800 < exSec.VirtualAddress + exSec.VirtualSize ∧
    rva_to_file_offset ([] ++ exSec :: []) 0x400 0x2800 = .error .ZeroFill :=
  ⟨by decide, by decide, by decide,
   C3_theorem [] [] exSec 0x400 0x2800 (by simp) (by decide) (by decide) (by decide)⟩

/-! ### Claim C4 -/

/-- Claim C4 (counterexample): on the validated image `exImageC4`
(one section: VirtualAddress 0x1000, VirtualSize 0x100,
SizeOfRawData 0x200, PointerToRawData 0x400), rva 0x1150 is resolved
through the section's raw-data range to `Ok(0x550)` — not via the
header region and not zero-fill — yet `file_offset_to_rva(0x550)`
returns `Err(OutOfBounds)` rather than `Ok(0x1150)`, because the rva
lies past the section's `VirtualSize` (raw-backed but not mapped). -/
theorem C4_counterexample :
    validate_headers exImageC4 = .ok 0x3000 ∧
    rva_to_file_offset_img exImageC4 0x1150 = .ok 0x550 ∧
    (rva_to_file_offset_img exImageC4 0x1150).bind (file_offset_to_rva_img exImageC4) =
      .error .OOB := by
  decide

/-- Claim C4 (amended): the composition
`file_offset_to_rva ∘ rva_to_file_offset` is the identity on an rva
resolved through a section's raw-data range provided (a) no earlier
section's virtual range claims the rva, (b) the rva additionally lies
within the section's `VirtualSize` (the reverse direction rejects
raw-backed but unmapped offsets as `OOB`), (c) the section's sums
`VirtualAddress + max(VirtualSize, SizeOfRawData)` and
`PointerToRawData + SizeOfRawData` do not overflow `u32`, and (d) no
earlier section's raw range contains the produced file offset (the
reverse scan is also first-match). -/
theorem C4_theorem (pre post : List IMAGE_SECTION_HEADER) (s : IMAGE_SECTION_HEADER)
    (soh rva : Nat)
    (hpre : ∀ t ∈ pre, ¬(t.VirtualAddress ≤ rva ∧ rva < sectionVirtualEnd t))
    (hwfA : s.VirtualAddress + max s.VirtualSize s.SizeOfRawData < U32_MOD)
    (hwfB : s.PointerToRawData + s.SizeOfRawData < U32_MOD)
    (hlo : s.VirtualAddress ≤ rva)
    (hhi : rva < s.VirtualAddress + min s.VirtualSize s.SizeOfRawData)
    (hpre2 : ∀ t ∈ pre,
      ¬(t.PointerToRawData ≤ rva - s.VirtualAddress + s.PointerToRawData ∧
        rva - s.VirtualAddress + s.PointerToRawData <
          t.PointerToRawData + t.SizeOfRawData)) :
    (rva_to_file_offset (pre ++ s :: post) soh rva).bind
      (file_offset_to_rva (pre ++ s :: post) soh) = .ok rva := by
  have hmin1 : min s.VirtualSize s.SizeOfRawData ≤ s.VirtualSize := min_le_left _ _
  have hmin2 : min s.VirtualSize s.SizeOfRawData ≤ s.SizeOfRawData := min_le_right _ _
  have hmax1 : s.VirtualSize ≤ max s.VirtualSize s.SizeOfRawData := le_max_left _ _
  have hmax2 : s.SizeOfRawData ≤ max s.VirtualSize s.SizeOfRawData := le_max_right _ _
  have e1 : rva_to_file_offset (pre ++ s :: post) soh rva =
      .ok (rva - s.VirtualAddress + s.PointerToRawData) := by
    rw [rva_to_file_offset_append pre (s :: post) soh rva hpre, rva_to_file_offset_cons]
    have hclaim : s.VirtualAddress ≤ rva ∧ rva < sectionVirtualEnd s := by
      unfold sectionVirtualEnd
      rw [Nat.mod_eq_of_lt hwfA]
      omega
    rw [if_pos hclaim,
      if_pos (by rw [Nat.mod_eq_of_lt (show s.VirtualAddress + s.SizeOfRawData < U32_MOD by
        omega)]; omega),
      Nat.mod_eq_of_lt (by omega)]
  rw [e1]
  show file_offset_to_rva (pre ++ s :: post) soh
      (rva - s.VirtualAddress + s.PointerToRawData) = .ok rva
  rw [file_offset_to_rva_append pre (s :: post) soh _ hpre2, file_offset_to_rva_cons]
  have hcontains : s.PointerToRawData ≤ rva - s.VirtualAddress + s.PointerToRawData ∧
      rva - s.VirtualAddress + s.PointerToRawData <
        s.PointerToRawData + s.SizeOfRawData := by omega
  rw [if_pos hcontains, if_pos (by omega)]
  have hofsM : (rva - s.VirtualAddress + s.PointerToRawData) % U32_MOD =
      rva - s.VirtualAddress + s.PointerToRawData := Nat.mod_eq_of_lt (by omega)
  rw [hofsM]
  unfold u32_sub
  rw [hofsM, Nat.mod_eq_of_lt (show s.PointerToRawData < U32_MOD by omega)]
  have e2 : rva - s.VirtualAddress + s.PointerToRawData + (U32_MOD - s.PointerToRawData) =
      rva - s.VirtualAddress + U32_MOD := by omega
  rw [e2, Nat.add_mod_right,
    Nat.mod_eq_of_lt (show rva - s.VirtualAddress < U32_MOD by omega)]
  have e3 : rva - s.VirtualAddress + s.VirtualAddress = rva := by omega
  rw [e3, Nat.mod_eq_of_lt (show rva < U32_MOD by omega)]

/-- Claim C4 (witness): the spec's end-to-end scenario — rva 0x1500 in
`exSec` maps to file offset 0x900 and back. -/
theorem C4_witness :
    exSec.VirtualAddress + max exSec.VirtualSize exSec.SizeOfRawData < U32_MOD ∧
    exSec.PointerToRawData + exSec.SizeOfRawData < U32_MOD ∧
    exSec.VirtualAddress ≤ 0x1500 ∧
    0x1500 < exSec.VirtualAddress + min exSec.VirtualSize exSec.SizeOfRawData ∧
    (rva_to_file_offset ([] ++ exSec :: []) 0x400 0x1500).bind
      (file_offset_to_rva ([] ++ exSec :: []) 0x400) = .ok 0x1500 :=
  ⟨by decide, by decide, by decide, by decide,
   C4_theorem [] [] exSec 0x400 0x1500 (by simp) (by decide) (by decide)
     (by decide) (by decide) (by simp)⟩

/-! ### Claim C5 -/

/-- Claim C5 (code bug): `validate_headers` accepts `exImageBad`, a
368-byte image whose single section header has
`VirtualAddress = VirtualSize = 0xFFFFFFFF`, because the validator
never inspects section header field values; the scan of
`rva_to_file_offset` then computes
`VirtualAddress + max(VirtualSize, SizeOfRawData) = 0x1FFFFFFFE`,
which exceeds the `u32` range — contradicting the claim (and spec §7's
"a malformed image must never be able to induce … integer overflow"):
in a debug build this addition panics, in release it wraps. -/
theorem C5_theorem :
    validate_headers exImageBad = .ok 0x3000 ∧
    (∃ s ∈ section_headers exImageBad,
      U32_MOD ≤ s.VirtualAddress + max s.VirtualSize s.SizeOfRawData) := by
  decide

/-! ### Claim C10 -/

/-- Claim C10 (confirmed): both scans are first-match over the section
table in storage order — an rva (or file offset) claimed by any
section is resolved by the *first* matching section, even when it also
lies below `SizeOfHeaders`; the header-region rule applies only when no
section matches, and it then maps the address to itself. -/
theorem C10_theorem (sections : List IMAGE_SECTION_HEADER) (soh rva fo : Nat)
    (hsoh : soh < U32_MOD) :
    rva_to_file_offset sections soh rva = rvaToFileOffsetSpec sections soh rva ∧
    file_offset_to_rva sections soh fo = fileOffsetToRvaSpec sections soh fo ∧
    ((∀ t ∈ sections, claimsSection t rva = false) → rva < soh →
      rva_to_file_offset sections soh rva = .ok rva) ∧
    ((∀ t ∈ sections, containsOffset t fo = false) → fo < soh →
      file_offset_to_rva sections soh fo = .ok fo) := by
  refine ⟨rva_to_file_offset_eq_spec sections soh rva,
    file_offset_to_rva_eq_spec sections soh fo, ?_, ?_⟩
  · intro hnone hlt
    rw [rva_to_file_offset_eq_spec]
    unfold rvaToFileOffsetSpec
    rw [List.find?_eq_none.mpr fun t ht => by rw [hnone t ht]; exact Bool.false_ne_true]
    rw [if_pos hlt]
  · intro hnone hlt
    rw [file_offset_to_rva_eq_spec]
    unfold fileOffsetToRvaSpec
    rw [List.find?_eq_none.mpr fun t ht => by rw [hnone t ht]; exact Bool.false_ne_true]
    rw [if_pos hlt, Nat.mod_eq_of_lt (by omega)]

/-- Claim C10 (witness): on the one-section table `[exSec]` with
`SizeOfHeaders = 0x400`, the unclaimed rva 0x10 and file offset 0x20
fall through to the header rule and map to themselves. -/
theorem C10_witness :
    (0x400 : Nat) < U32_MOD ∧
    rva_to_file_offset [exSec] 0x400 0x10 = .ok 0x10 ∧
    file_offset_to_rva [exSec] 0x400 0x20 = .ok 0x20 :=
  ⟨by decide,
   (C10_theorem [exSec] 0x400 0x10 0x20 (by decide)).2.2.1
     (by decide) (by decide),
   (C10_theorem [exSec] 0x400 0x10 0x20 (by decide)).2.2.2
     (by decide) (by decide)⟩

/-- Evaluating `derva_slice_f` once the view is known. -/
theorem derva_slice_f_view {T : Type}
    (sliceFn : Nat → Nat → Nat → Except Error (List Nat))
    (sizeT : Nat) (hsz : 0 < sizeT) (alignT : Nat) (decodeT : List Nat → T)
    (f : T → Bool) (rva : Nat) (bytes : List Nat)
    (hview : sliceFn rva 0 alignT = .ok bytes) :
    derva_slice_f sliceFn sizeT hsz alignT decodeT f rva =
      match slice_f_len sizeT decodeT f bytes hsz 0 with
      | .error e => .error e
      | .ok len => .ok ((List.range len).map (elemAt decodeT sizeT bytes)) := by
  unfold derva_slice_f
  rw [hview]

/-! ### Claim C7 -/

/-- Claim C7 (confirmed): over the view `bytes` obtained with
`min_size = 0`, the sentinel-terminated read `derva_slice_s` returns
`Err(OutOfBounds)` whenever no element equal to the sentinel fits
within the view's bounds; and when it succeeds, every element it
examined — including the terminating sentinel — lay entirely inside
the view (`(len + 1) * size_of::<T>() ≤ bytes.len()`, so no byte at or
past the view's end is accessed), and the result is exactly the prefix
of elements strictly before the first sentinel.  `hsz` records that
`T` is not zero-sized. -/
theorem C7_theorem {T : Type} [DecidableEq T]
    (sliceFn : Nat → Nat → Nat → Except Error (List Nat))
    (sizeT : Nat) (hsz : 0 < sizeT) (alignT : Nat) (decodeT : List Nat → T)
    (sentinel : T) (rva : Nat) (bytes : List Nat)
    (hview : sliceFn rva 0 alignT = .ok bytes) :
    ((∀ i, (i + 1) * sizeT ≤ bytes.length → elemAt decodeT sizeT bytes i ≠ sentinel) →
      derva_slice_s sliceFn sizeT hsz alignT decodeT sentinel rva = .error .OOB) ∧
    (∀ elems, derva_slice_s sliceFn sizeT hsz alignT decodeT sentinel rva = .ok elems →
      (elems.length + 1) * sizeT ≤ bytes.length ∧
      elemAt decodeT sizeT bytes elems.length = sentinel ∧
      elems = (List.range elems.length).map (elemAt decodeT sizeT bytes) ∧
      ∀ i, i < elems.length → elemAt decodeT sizeT bytes i ≠ sentinel) := by
  constructor
  · intro hno
    unfold derva_slice_s
    rw [derva_slice_f_view sliceFn sizeT hsz alignT decodeT _ rva bytes hview]
    have hloop := slice_f_len_oob sizeT decodeT (fun tee => decide (tee = sentinel))
      bytes hsz (bytes.length + 1) 0 (by omega)
      (fun i _ hib => decide_eq_false (hno i hib))
    rw [hloop]
  · intro elems hok
    unfold derva_slice_s at hok
    rw [derva_slice_f_view sliceFn sizeT hsz alignT decodeT _ rva bytes hview] at hok
    cases hsl : slice_f_len sizeT decodeT (fun tee => decide (tee = sentinel)) bytes hsz 0 with
    | error e =>
      rw [hsl] at hok
      exact Except.noConfusion hok
    | ok L =>
      rw [hsl] at hok
      have he := Except.ok.inj hok
      obtain ⟨_h1, h2, h3, h4⟩ := slice_f_len_ok sizeT decodeT
        (fun tee => decide (tee = sentinel)) bytes hsz (bytes.length + 1) 0 L (by omega) hsl
      subst he
      have hlen : ((List.range L).map (elemAt decodeT sizeT bytes)).length = L := by
        simp
      rw [hlen]
      refine ⟨h2, of_decide_eq_true h3, rfl, ?_⟩
      intro i hiL
      exact of_decide_eq_false (h4 i (Nat.zero_le i) hiL)

/-- Claim C7 (witness): a three-byte view `[1, 2, 3]` read as
byte-sized elements with sentinel 0 — the sentinel never appears, and
the read reports `Err(OutOfBounds)`. -/
theorem C7_witness :
    ((fun _ _ _ => (Except.ok [1, 2, 3] : Except Error (List Nat))) 0 0 1 =
      Except.ok [1, 2, 3]) ∧
    derva_slice_s (fun _ _ _ => (Except.ok [1, 2, 3] : Except Error (List Nat)))
      1 Nat.one_pos 1 (fun l => l.headD 0) 0 0 = .error .OOB :=
  ⟨rfl,
   (C7_theorem (fun _ _ _ => (Except.ok [1, 2, 3] : Except Error (List Nat)))
      1 Nat.one_pos 1 (fun l => l.headD 0) 0 0 [1, 2, 3] rfl).1
     (by
       intro i hi
       have hi2 : i ≤ 2 := by
         simpa using hi
       interval_cases i <;> decide)⟩

end Pelite
